import Mathlib

/-!
Verification development for the GMS importer (text-based GMO model reader).

The definitions below are a shallow embedding of the Python sources:
  * `gms_reader.py`   — the tolerant line-based parser (`GMSReader`),
  * `mesh_builder.py` — the skin weight resolver (`apply_vertex_weights`),
  * `import_gms.py`   — the bone hierarchy resolver (`create_armature`) and
    the rigid-mesh binding decision of `import_gms_file`,
  * `utils.py`        — `sanitize_name` and small helpers.

Python floats are modelled as rationals (`ℚ`) in the parser and the skin
weight resolver (where everything must evaluate), and as reals (`ℝ`) in the
bone-transform mathematics.  Python exceptions are modelled by `Except
String`; python lists by `List`; python dicts by association lists with
newest-binding-first insertion, looked up with `List.lookup` (first hit =
latest insertion, matching dict overwrite semantics).
-/

namespace GMS

/-! ## String helpers (modelling Python `str` methods used by the sources)

All string manipulation is done on the character list of the string, so every
definition evaluates by kernel reduction. -/

/-- Python `str.strip()` on the left: drop leading whitespace characters. -/
def dropWs (l : List Char) : List Char := l.dropWhile Char.isWhitespace

/-- Python `str.strip()`: trim whitespace on both ends. -/
def pyStrip (s : String) : String :=
  String.mk (((dropWs s.toList).reverse.dropWhile Char.isWhitespace).reverse)

/-- Python `str.rstrip()`: trim whitespace on the right only. -/
def pyRStrip (s : String) : String :=
  String.mk ((s.toList.reverse.dropWhile Char.isWhitespace).reverse)

/-- Python `str.startswith(p)`. -/
def chStartsWith (s p : String) : Bool :=
  s.toList.take p.toList.length == p.toList

/-- Python `str.endswith(p)`. -/
def chEndsWith (s p : String) : Bool :=
  s.toList.drop (s.toList.length - p.toList.length) == p.toList ∧ p.toList.length ≤ s.toList.length

/-- Python `sub in s` (substring containment), by scanning every suffix. -/
def subScan (p : List Char) : List Char → Bool
  | [] => p.isEmpty
  | c :: rest => (c :: rest).take p.length == p || subScan p rest

/-- Python `sub in s` on strings. -/
def hasSub (s sub : String) : Bool := subScan sub.toList s.toList

/-- Helper for Python `str.split()`: split on whitespace runs, dropping empty
fields.  `cur` collects the current word reversed. -/
def wordsAux : List Char → List Char → List String
  | [], [] => []
  | [], cur => [String.mk cur.reverse]
  | c :: rest, cur =>
    if c.isWhitespace then
      if cur = [] then wordsAux rest []
      else String.mk cur.reverse :: wordsAux rest []
    else wordsAux rest (c :: cur)

/-- Python `str.split()` with no argument. -/
def pySplit (s : String) : List String := wordsAux s.toList []

/-- One step of Python `str.replace(pat, rep)` on character lists, with fuel
(each step consumes at least one input character, so fuel = input length is
always enough).  The empty-pattern corner of Python `replace` is never used
by the sources and is modelled as the identity. -/
def replaceChars (pat rep : List Char) : ℕ → List Char → List Char
  | _, [] => []
  | 0, l => l
  | f + 1, c :: rest =>
    if pat ≠ [] ∧ (c :: rest).take pat.length = pat then
      rep ++ replaceChars pat rep f ((c :: rest).drop pat.length)
    else
      c :: replaceChars pat rep f rest

/-- Python `s.replace(pat, rep)` (replaces every occurrence, left to right). -/
def pyReplace (s pat rep : String) : String :=
  String.mk (replaceChars pat.toList rep.toList s.toList.length s.toList)

/-- `utils.sanitize_name`: nine chained single-character `str.replace` calls,
each sending one special character to an underscore; equivalently a character
map over the string. -/
def sanitizeName (s : String) : String :=
  String.mk (s.toList.map fun c =>
    if c = '\\' ∨ c = '/' ∨ c = ':' ∨ c = '*' ∨ c = '?' ∨ c = '\"' ∨
       c = '<' ∨ c = '>' ∨ c = '|' then '_' else c)

/-- All non-overlapping matches of the regex `\"([^\"]+)\"` (Python
`re.findall` in `_parse_bone`'s `BlendBones` branch), scanned with fuel on
the character list.  A quoted group must be non-empty; after an empty pair
of quotes the scan resumes at the second quote, exactly as the regex engine
backtracks. -/
def quotedAux : ℕ → List Char → List String
  | 0, _ => []
  | _ + 1, [] => []
  | f + 1, c :: rest =>
    if c = '\"' then
      let content := rest.takeWhile (· ≠ '\"')
      let after := rest.drop content.length
      match after with
      | '\"' :: more =>
        if content ≠ [] then String.mk content :: quotedAux f more
        else quotedAux f rest
      | _ => []
    else quotedAux f rest

/-- Python `re.findall(r'\"([^\"]+)\"', line)`. -/
def findAllQuoted (s : String) : List String := quotedAux s.toList.length s.toList

/-- `GMSReader._extract_name`: `re.search(r'\"([^\"]+)\"', line)`, i.e. the
first quoted non-empty substring. -/
def extractName (s : String) : Option String := (findAllQuoted s).head?

/-! ## Numeric token parsing (Python `float`, `int`, `str.isdigit`) -/

/-- Digits of a numeral folded into a natural number. -/
def digitsNat (l : List Char) : ℕ :=
  l.foldl (fun acc c => acc * 10 + (c.toNat - 48)) 0

/-- Python `float(tok)` for plain decimal literals: optional sign, digits,
optional fraction, the value being `± (int.frac) = ± allDigits / 10^|frac|`.
(Scientific notation and specials are accepted by Python but never occur in
the directives the claims exercise.)  Returns `none` for a malformed token,
modelling `ValueError`. -/
def parseFloat? (s : String) : Option ℚ :=
  let (neg, cs) : Bool × List Char :=
    match s.toList with
    | '-' :: r => (true, r)
    | '+' :: r => (false, r)
    | l => (false, l)
  let intPart := cs.takeWhile Char.isDigit
  let rest := cs.drop intPart.length
  let build : List Char → Option ℚ := fun frac =>
    let mag : ℕ := digitsNat intPart * 10 ^ frac.length + digitsNat frac
    some (mkRat (if neg then -(mag : Int) else (mag : Int)) (10 ^ frac.length))
  match rest with
  | [] => if intPart = [] then none else build []
  | '.' :: frac =>
    if frac.all Char.isDigit ∧ (intPart ≠ [] ∨ frac ≠ []) then build frac
    else none
  | _ => none

/-- Python `int(tok)`: optional sign and digits only. -/
def parseInt? (s : String) : Option Int :=
  let (neg, cs) : Bool × List Char :=
    match s.toList with
    | '-' :: r => (true, r)
    | '+' :: r => (false, r)
    | l => (false, l)
  if cs ≠ [] ∧ cs.all Char.isDigit then
    some (if neg then -(digitsNat cs : Int) else (digitsNat cs : Int))
  else none

/-- Python `str.isdigit()`. -/
def pyIsDigit (s : String) : Bool := s.toList ≠ [] ∧ s.toList.all Char.isDigit

/-- Python `float(tok)` with `ValueError` modelled as an `Except` error. -/
def pyFloat (s : String) : Except String ℚ :=
  match parseFloat? s with
  | some q => .ok q
  | none => .error "ValueError: could not convert string to float"

/-- Python `int(tok)` with `ValueError` modelled as an `Except` error. -/
def pyInt (s : String) : Except String Int :=
  match parseInt? s with
  | some i => .ok i
  | none => .error "ValueError: invalid literal for int"

/-- Python `l[i]` for a non-negative index, with `IndexError` modelled as an
`Except` error. -/
def pyIdx (l : List String) (i : ℕ) : Except String String :=
  match l.get? i with
  | some a => .ok a
  | none => .error "IndexError: list index out of range"

/-! ## Data model (`gms_reader.py` dataclasses)

Fields that the parser never assigns (`Bone.blind_data`,
`VertexData.bone_indices`, `Motion.fcurves`, `Mesh` lists inside `Layer`
keep their parsed shape) are included only when some code path writes or
reads them; the rest carry their Python default values. -/

/-- `Vector3` (defaults `0,0,0`). -/
structure Vec3 where
  x : ℚ := 0
  y : ℚ := 0
  z : ℚ := 0
deriving DecidableEq

/-- `Vector4` (defaults `0,0,0,1`). -/
structure Vec4 where
  x : ℚ := 0
  y : ℚ := 0
  z : ℚ := 0
  w : ℚ := 1
deriving DecidableEq

/-- `Color` (defaults `1,1,1,1`). -/
structure GColor where
  r : ℚ := 1
  g : ℚ := 1
  b : ℚ := 1
  a : ℚ := 1
deriving DecidableEq

/-- `BoundingBox`. -/
structure GBoundingBox where
  bbMin : Vec3 := {}
  bbMax : Vec3 := {}
deriving DecidableEq

/-- `Bone` (the unused `blind_data` field is omitted: `_parse_bone` has no
`BlindData` branch and nothing reads it). -/
structure GBone where
  name : String := ""
  parent_name : Option String := none
  translation : Vec3 := {}
  rotation : Vec3 := {}
  rotation_quaternion : Option Vec4 := none
  scale : Vec3 := { x := 1, y := 1, z := 1 }
  blend_bones : List String := []
deriving DecidableEq

/-- `VertexData` (the never-written `bone_indices` field is omitted). -/
structure GVertexData where
  positions : List Vec3 := []
  normals : List Vec3 := []
  colors : List GColor := []
  uvs : List (ℚ × ℚ) := []
  weights : List (List ℚ) := []
deriving DecidableEq

/-- `DrawArraysCommand`. -/
structure GDrawArrays where
  arrays_name : String := ""
  primitive_type : String := ""
  vertex_count : ℕ := 0
  vertex_count_per_primitive : ℕ := 0
  primitive_count : ℕ := 0
  indices : List Int := []
deriving DecidableEq

/-- `Mesh`. -/
structure GMesh where
  name : String := ""
  material_name : Option String := none
  draw_arrays : List GDrawArrays := []
  part_arrays : List (String × GVertexData) := []
  blend_subset : List Int := []
deriving DecidableEq

/-- `Layer`. -/
structure GLayer where
  name : String := ""
  diffuse : Option GColor := none
  ambient : Option GColor := none
  specular : Option GColor := none
  emission : Option GColor := none
  texture_name : Option String := none
  meshes : List GMesh := []
deriving DecidableEq

/-- `Material`. -/
structure GMaterial where
  name : String := ""
  diffuse : Option GColor := none
  ambient : Option GColor := none
  layers : List GLayer := []
deriving DecidableEq

/-- `Motion` (the `fcurves` list is never filled in: the parser skips
`FCurve`/`Animate` lines, so the field is omitted). -/
structure GMotion where
  name : String := ""
  frame_rate : ℚ := 30
  frame_loop : ℚ × ℚ := (0, 0)
deriving DecidableEq

/-- `Part` (`parent_bone_index` / `parent_bone_name` keep their defaults:
the parser never assigns them). -/
structure GPart where
  name : String := ""
  meshes : List GMesh := []
  parent_bone_index : Int := -1
  parent_bone_name : Option String := none
deriving DecidableEq

/-- `Texture`. -/
structure GTexture where
  name : String := ""
  filename : String := ""
deriving DecidableEq

/-- `Model`.  The Python name→index dicts and name-keyed dicts are
association lists with the most recent insertion first, so `List.lookup`
returns the latest binding just like a Python dict. -/
structure GModel where
  name : String := ""
  bounding_box : Option GBoundingBox := none
  bones : List GBone := []
  bone_dict : List (String × ℕ) := []
  parts : List GPart := []
  materials : List GMaterial := []
  material_dict : List (String × ℕ) := []
  textures : List GTexture := []
  texture_dict : List (String × ℕ) := []
  motions : List GMotion := []
  arrays_dict : List (String × GVertexData) := []
  part_to_bone : List (String × String) := []
deriving DecidableEq

/-! ## Parser state (`GMSReader` cursor plus the live `self.model` tables)

The reader threads a mutable line cursor; `_parse_bone` also writes
`self.model.part_to_bone` and `_parse_part` writes
`self.model.arrays_dict` while their blocks are parsed.  Those two tables
ride along in the state and are copied into the returned `Model` at the
end, which is equivalent because nothing reads them during the parse. -/

structure PState where
  lines : List String
  pos : ℕ
  partToBone : List (String × String) := []
  arraysDict : List (String × GVertexData) := []

/-- `GMSReader._peek_line` (offset 0): the stripped current line, or `""`
past the end. -/
def PState.peek (st : PState) : String := pyStrip (st.lines.getD st.pos "")

/-- Advance the cursor. -/
def PState.adv (st : PState) (n : ℕ) : PState := { st with pos := st.pos + n }

/-- `GMSReader._read_line`: stripped current line, advancing the cursor;
at end of input returns `""` without advancing. -/
def PState.readLine (st : PState) : String × PState :=
  if st.pos < st.lines.length then (pyStrip (st.lines.getD st.pos ""), st.adv 1)
  else ("", st)

/-- The `if not line.rstrip().endswith('{'): self._read_line()` step shared
by every block header: when the header line does not already end with the
opening brace, the next line (the lone brace) is consumed. -/
def headerSkip (line : String) (st : PState) : PState :=
  if chEndsWith (pyRStrip line) "\x7b" then st else (st.readLine).2

/-! ## Leaf directive decoding -/

/-- `_parse_bounding_box`: `BoundingBox x0 y0 z0 x1 y1 z1` with six
unguarded positional floats (`IndexError` on a short line). -/
def parseBoundingBox (st : PState) : Except String (GBoundingBox × PState) := do
  let (line, st) := st.readLine
  let parts := (pySplit line).drop 1
  let q0 ← pyIdx parts 0 >>= pyFloat
  let q1 ← pyIdx parts 1 >>= pyFloat
  let q2 ← pyIdx parts 2 >>= pyFloat
  let q3 ← pyIdx parts 3 >>= pyFloat
  let q4 ← pyIdx parts 4 >>= pyFloat
  let q5 ← pyIdx parts 5 >>= pyFloat
  .ok ({ bbMin := ⟨q0, q1, q2⟩, bbMax := ⟨q3, q4, q5⟩ }, st)

/-- Three unguarded positional floats after the keyword (the
`Translate` / `RotateZYX` / `RotateYXZ` / `Scale` bone directives). -/
def parseVec3Line (line : String) : Except String Vec3 := do
  let parts := (pySplit line).drop 1
  let q0 ← pyIdx parts 0 >>= pyFloat
  let q1 ← pyIdx parts 1 >>= pyFloat
  let q2 ← pyIdx parts 2 >>= pyFloat
  .ok ⟨q0, q1, q2⟩

/-- Four unguarded positional floats after the keyword (`RotateQ`, and the
`Layer` colour directives). -/
def parse4Line (line : String) : Except String (ℚ × ℚ × ℚ × ℚ) := do
  let parts := (pySplit line).drop 1
  let q0 ← pyIdx parts 0 >>= pyFloat
  let q1 ← pyIdx parts 1 >>= pyFloat
  let q2 ← pyIdx parts 2 >>= pyFloat
  let q3 ← pyIdx parts 3 >>= pyFloat
  .ok (q0, q1, q2, q3)

/-- The recognized primitive-type tokens of `_parse_draw_arrays`. -/
def primTypes : List String :=
  ["TRIANGLES", "TRIANGLE_STRIP", "TRIANGLE_FAN", "POINTS", "LINES", "LINE_STRIP"]

/-- `part.replace('PRIM_', '') if part.startswith('PRIM_') else part`. -/
def stripPrim (p : String) : String :=
  if chStartsWith p "PRIM_" then pyReplace p "PRIM_" "" else p

/-- `_parse_draw_arrays`: single-line command; scans for the first token
that is a primitive type (optionally `PRIM_`-prefixed), reads the two
digit-guarded counts after it, and collects the remaining integer tokens as
indices (non-integers skipped by the `try/except`). -/
def parseDrawArrays (st : PState) : GDrawArrays × PState :=
  let (line, st) := st.readLine
  let parts := pySplit line
  let base : GDrawArrays := { arrays_name := (extractName line).getD "" }
  match parts.findIdx? (fun p => stripPrim p ∈ primTypes) with
  | none => (base, st)
  | some i =>
    let vcpp := if i + 1 < parts.length ∧ pyIsDigit (parts.getD (i + 1) "") then
        digitsNat (parts.getD (i + 1) "").toList else 0
    let pc := if i + 2 < parts.length ∧ pyIsDigit (parts.getD (i + 2) "") then
        digitsNat (parts.getD (i + 2) "").toList else 0
    ({ base with
        primitive_type := stripPrim (parts.getD i ""),
        vertex_count := vcpp * pc,
        vertex_count_per_primitive := vcpp,
        primitive_count := pc,
        indices := (parts.drop (i + 3)).filterMap parseInt? }, st)

/-! ## Vertex array decoder (`_parse_arrays`) -/

/-- The tokens recognized as a whole format-flags token by the header scan
of `_parse_arrays` (besides any token containing `|`). -/
def knownFlagTokens : List String :=
  ["VERTEX", "NORMAL", "TEXCOORD", "COLOR", "WEIGHT1", "WEIGHT2", "WEIGHT3",
   "WEIGHT4", "WEIGHT5", "WEIGHT6", "WEIGHT7", "WEIGHT8"]

/-- The weight channel count: the first `i` in `1..8` with `WEIGHT<i>` a
substring of the flags token, else `0`. -/
def weightCountOf (flags : String) : ℕ :=
  match ["WEIGHT1", "WEIGHT2", "WEIGHT3", "WEIGHT4", "WEIGHT5", "WEIGHT6",
         "WEIGHT7", "WEIGHT8"].findIdx? (fun w => hasSub flags w) with
  | some i => i + 1
  | none => 0

/-- One data line of an `Arrays` block: consume fields left to right in the
fixed order position(3), normal(3), uv(2), color(4), weights(`wc`); a field
is appended to its stream only when enough values remain on the line. -/
def decodeArraysLine (hasV hasN hasT hasC : Bool) (wc : ℕ) (vals : List ℚ)
    (vd : GVertexData) : GVertexData :=
  let s1 : GVertexData × ℕ :=
    if hasV ∧ 0 + 3 ≤ vals.length then
      ({ vd with positions := vd.positions ++
          [⟨vals.getD 0 0, vals.getD 1 0, vals.getD 2 0⟩] }, 0 + 3)
    else (vd, 0)
  let s2 : GVertexData × ℕ :=
    if hasN ∧ s1.2 + 3 ≤ vals.length then
      ({ s1.1 with normals := s1.1.normals ++
          [⟨vals.getD s1.2 0, vals.getD (s1.2 + 1) 0, vals.getD (s1.2 + 2) 0⟩] }, s1.2 + 3)
    else s1
  let s3 : GVertexData × ℕ :=
    if hasT ∧ s2.2 + 2 ≤ vals.length then
      ({ s2.1 with uvs := s2.1.uvs ++ [(vals.getD s2.2 0, vals.getD (s2.2 + 1) 0)] }, s2.2 + 2)
    else s2
  let s4 : GVertexData × ℕ :=
    if hasC ∧ s3.2 + 4 ≤ vals.length then
      ({ s3.1 with colors := s3.1.colors ++
          [⟨vals.getD s3.2 0, vals.getD (s3.2 + 1) 0, vals.getD (s3.2 + 2) 0,
            vals.getD (s3.2 + 3) 0⟩] }, s3.2 + 4)
    else s3
  if 0 < wc ∧ s4.2 + wc ≤ vals.length then
    { s4.1 with weights := s4.1.weights ++
        [(List.range wc).map fun j => vals.getD (s4.2 + j) 0] }
  else s4.1

/-- Data-line loop of `_parse_arrays` (fuel-indexed; every step consumes at
least one line, so any fuel at least the number of remaining lines behaves
like the unbounded loop).  A non-numeric token on a data line raises
`ValueError` out of the whole parse. -/
def arraysLoop : ℕ → Bool → Bool → Bool → Bool → ℕ → GVertexData → PState →
    Except String (GVertexData × PState)
  | 0, _, _, _, _, _, _, _ => .error "fuel exhausted"
  | f + 1, hv, hn, ht, hc, wc, vd, st =>
    if st.pos < st.lines.length then
      let line := st.peek
      if line = "" ∨ chStartsWith line "//" then arraysLoop f hv hn ht hc wc vd (st.adv 1)
      else if line = "\x7d" then .ok (vd, st.adv 1)
      else do
        let vals ← (pySplit line).mapM pyFloat
        arraysLoop f hv hn ht hc wc (decodeArraysLine hv hn ht hc wc vals vd) (st.adv 1)
    else .ok (vd, st)

/-- `_parse_arrays`: header scan for a flags token (first token containing
`|` or equal to a recognized flag; the following count token is read into a
local that is never used afterwards), then the data-line loop. -/
def parseArrays (f : ℕ) (st : PState) :
    Except String ((String × GVertexData) × PState) := do
  let (line, st) := st.readLine
  let arrName := (extractName line).getD ""
  let parts := pySplit line
  let flags :=
    match parts.find? (fun p => p.toList.contains '|' || p ∈ knownFlagTokens) with
    | some p => p
    | none => ""
  let st := headerSkip line st
  let (vd, st) ← arraysLoop f (hasSub flags "VERTEX") (hasSub flags "NORMAL")
      (hasSub flags "TEXCOORD") (hasSub flags "COLOR") (weightCountOf flags) {} st
  .ok ((arrName, vd), st)

/-! ## Block parsers -/

/-- Body loop of `_parse_bone`.  Every directive uses the peeked line and
advances by one; `DrawPart` records `part_to_bone[part] = bone.name` on the
live model. -/
def boneLoop : ℕ → GBone → PState → Except String (GBone × PState)
  | 0, _, _ => .error "fuel exhausted"
  | f + 1, bone, st =>
    if st.pos < st.lines.length then
      let line := st.peek
      if line = "" ∨ chStartsWith line "//" then boneLoop f bone (st.adv 1)
      else if line = "\x7d" then .ok (bone, st.adv 1)
      else if chStartsWith line "ParentBone" then
        boneLoop f { bone with parent_name := extractName line } (st.adv 1)
      else if chStartsWith line "Translate" then do
        let v ← parseVec3Line line
        boneLoop f { bone with translation := v } (st.adv 1)
      else if chStartsWith line "RotateZYX" ∨ chStartsWith line "RotateYXZ" then do
        let v ← parseVec3Line line
        boneLoop f { bone with rotation := v } (st.adv 1)
      else if chStartsWith line "RotateQ" then do
        let (x, y, z, w) ← parse4Line line
        boneLoop f { bone with rotation_quaternion := some ⟨x, y, z, w⟩ } (st.adv 1)
      else if chStartsWith line "Scale" then do
        let v ← parseVec3Line line
        boneLoop f { bone with scale := v } (st.adv 1)
      else if chStartsWith line "BlendBones" then
        boneLoop f { bone with blend_bones := findAllQuoted line } (st.adv 1)
      else if chStartsWith line "DrawPart" then
        match extractName line with
        | some pn =>
          boneLoop f bone { st.adv 1 with partToBone := (pn, bone.name) :: st.partToBone }
        | none => boneLoop f bone (st.adv 1)
      else boneLoop f bone (st.adv 1)
    else .ok (bone, st)

/-- `_parse_bone`: header (name, optional lone brace), then the body loop.
Running off the end of input simply returns the bone built so far. -/
def parseBone (f : ℕ) (st : PState) : Except String (GBone × PState) :=
  let (line, st) := st.readLine
  let bone : GBone := { name := (extractName line).getD "" }
  boneLoop f bone (headerSkip line st)

/-- Body loop of `_parse_mesh`. -/
def meshLoop : ℕ → GMesh → PState → Except String (GMesh × PState)
  | 0, _, _ => .error "fuel exhausted"
  | f + 1, mesh, st =>
    if st.pos < st.lines.length then
      let line := st.peek
      if line = "" ∨ chStartsWith line "//" then meshLoop f mesh (st.adv 1)
      else if line = "\x7d" then .ok (mesh, st.adv 1)
      else if chStartsWith line "SetMaterial" then
        meshLoop f { mesh with material_name := extractName line } (st.adv 1)
      else if chStartsWith line "BlendSubset" then
        -- BlendSubset <count> <idx...>: `count` entries are read, each
        -- guarded by `i < len(parts)`; `int` failures raise.
        let parts := pySplit line
        if 2 ≤ parts.length then do
          let count ← pyInt (parts.getD 1 "")
          let idxs := ((List.range count.toNat).map (· + 2)).filter (· < parts.length)
          let vals ← idxs.mapM (fun i => pyIdx parts i >>= pyInt)
          meshLoop f { mesh with blend_subset := vals } (st.adv 1)
        else meshLoop f mesh (st.adv 1)
      else if chStartsWith line "DrawArrays" then
        let (cmd, st) := parseDrawArrays st
        meshLoop f { mesh with draw_arrays := mesh.draw_arrays ++ [cmd] } st
      else meshLoop f mesh (st.adv 1)
    else .ok (mesh, st)

/-- `_parse_mesh`. -/
def parseMesh (f : ℕ) (st : PState) : Except String (GMesh × PState) :=
  let (line, st) := st.readLine
  let mesh : GMesh := { name := (extractName line).getD "" }
  meshLoop f mesh (headerSkip line st)

/-- Body loop of `_parse_layer` (colour directives are unguarded
positional floats; nested `Mesh` blocks recurse). -/
def layerLoop : ℕ → GLayer → PState → Except String (GLayer × PState)
  | 0, _, _ => .error "fuel exhausted"
  | f + 1, layer, st =>
    if st.pos < st.lines.length then
      let line := st.peek
      if line = "" ∨ chStartsWith line "//" then layerLoop f layer (st.adv 1)
      else if line = "\x7d" then .ok (layer, st.adv 1)
      else if chStartsWith line "Diffuse" then do
        let (r, g, b, a) ← parse4Line line
        layerLoop f { layer with diffuse := some ⟨r, g, b, a⟩ } (st.adv 1)
      else if chStartsWith line "Ambient" then do
        let (r, g, b, a) ← parse4Line line
        layerLoop f { layer with ambient := some ⟨r, g, b, a⟩ } (st.adv 1)
      else if chStartsWith line "Specular" then do
        let (r, g, b, a) ← parse4Line line
        layerLoop f { layer with specular := some ⟨r, g, b, a⟩ } (st.adv 1)
      else if chStartsWith line "Emission" then do
        let (r, g, b, a) ← parse4Line line
        layerLoop f { layer with emission := some ⟨r, g, b, a⟩ } (st.adv 1)
      else if chStartsWith line "SetTexture" then
        layerLoop f { layer with texture_name := extractName line } (st.adv 1)
      else if chStartsWith line "BlendFunc" then layerLoop f layer (st.adv 1)
      else if chStartsWith line "Mesh" then do
        let (mesh, st) ← parseMesh f st
        layerLoop f { layer with meshes := layer.meshes ++ [mesh] } st
      else layerLoop f layer (st.adv 1)
    else .ok (layer, st)

/-- `_parse_layer`. -/
def parseLayer (f : ℕ) (st : PState) : Except String (GLayer × PState) :=
  let (line, st) := st.readLine
  let layer : GLayer := { name := (extractName line).getD "" }
  layerLoop f layer (headerSkip line st)

/-- Body loop of `_parse_material` (its colour directives, unlike the
layer's, are guarded by `len(parts) >= 4` and silently skip short lines). -/
def materialLoop : ℕ → GMaterial → PState → Except String (GMaterial × PState)
  | 0, _, _ => .error "fuel exhausted"
  | f + 1, mat, st =>
    if st.pos < st.lines.length then
      let line := st.peek
      if line = "" ∨ chStartsWith line "//" then materialLoop f mat (st.adv 1)
      else if line = "\x7d" then .ok (mat, st.adv 1)
      else if chStartsWith line "Diffuse" then
        let parts := (pySplit line).drop 1
        if 4 ≤ parts.length then do
          let (r, g, b, a) ← parse4Line line
          materialLoop f { mat with diffuse := some ⟨r, g, b, a⟩ } (st.adv 1)
        else materialLoop f mat (st.adv 1)
      else if chStartsWith line "Ambient" then
        let parts := (pySplit line).drop 1
        if 4 ≤ parts.length then do
          let (r, g, b, a) ← parse4Line line
          materialLoop f { mat with ambient := some ⟨r, g, b, a⟩ } (st.adv 1)
        else materialLoop f mat (st.adv 1)
      else if chStartsWith line "Layer" then do
        let (layer, st) ← parseLayer f st
        materialLoop f { mat with layers := mat.layers ++ [layer] } st
      else if chStartsWith line "BlindData" ∨ chStartsWith line "RenderState" then
        materialLoop f mat (st.adv 1)
      else materialLoop f mat (st.adv 1)
    else .ok (mat, st)

/-- `_parse_material`. -/
def parseMaterial (f : ℕ) (st : PState) : Except String (GMaterial × PState) :=
  let (line, st) := st.readLine
  let mat : GMaterial := { name := (extractName line).getD "" }
  materialLoop f mat (headerSkip line st)

/-- Body loop of `_parse_part` (`BoundingBox` lines inside a part are
skipped; `Arrays` blocks are registered both in the part-local table and in
the model-wide `arrays_dict`). -/
def partLoop : ℕ → GPart → List (String × GVertexData) → PState →
    Except String (GPart × List (String × GVertexData) × PState)
  | 0, _, _, _ => .error "fuel exhausted"
  | f + 1, part, pa, st =>
    if st.pos < st.lines.length then
      let line := st.peek
      if line = "" ∨ chStartsWith line "//" then partLoop f part pa (st.adv 1)
      else if line = "\x7d" then .ok (part, pa, st.adv 1)
      else if chStartsWith line "BoundingBox" then partLoop f part pa (st.adv 1)
      else if chStartsWith line "Mesh" then do
        let (mesh, st) ← parseMesh f st
        partLoop f { part with meshes := part.meshes ++ [mesh] } pa st
      else if chStartsWith line "Arrays" then do
        let ((an, ad), st) ← parseArrays f st
        partLoop f part ((an, ad) :: pa)
          { st with arraysDict := (an, ad) :: st.arraysDict }
      else partLoop f part pa (st.adv 1)
    else .ok (part, pa, st)

/-- `_parse_part`: after the loop, every parsed mesh receives the
part-local arrays table. -/
def parsePart (f : ℕ) (st : PState) : Except String (GPart × PState) := do
  let (line, st) := st.readLine
  let part : GPart := { name := (extractName line).getD "" }
  let (part, pa, st) ← partLoop f part [] (headerSkip line st)
  .ok ({ part with meshes := part.meshes.map fun m => { m with part_arrays := pa } }, st)

/-- Body loop of `_parse_texture`. -/
def textureLoop : ℕ → GTexture → PState → Except String (GTexture × PState)
  | 0, _, _ => .error "fuel exhausted"
  | f + 1, tex, st =>
    if st.pos < st.lines.length then
      let line := st.peek
      if line = "" ∨ chStartsWith line "//" then textureLoop f tex (st.adv 1)
      else if line = "\x7d" then .ok (tex, st.adv 1)
      else if chStartsWith line "FileName" then
        match extractName line with
        | some fn => textureLoop f { tex with filename := fn } (st.adv 1)
        | none => textureLoop f tex (st.adv 1)
      else textureLoop f tex (st.adv 1)
    else .ok (tex, st)

/-- `_parse_texture`. -/
def parseTexture (f : ℕ) (st : PState) : Except String (GTexture × PState) :=
  let (line, st) := st.readLine
  let tex : GTexture := { name := (extractName line).getD "" }
  textureLoop f tex (headerSkip line st)

/-- Body loop of `_parse_motion` (`FrameRate` reads token 1 of the whole
split unguarded; `FrameLoop` reads two unguarded floats after the keyword;
curve data is skipped). -/
def motionLoop : ℕ → GMotion → PState → Except String (GMotion × PState)
  | 0, _, _ => .error "fuel exhausted"
  | f + 1, mo, st =>
    if st.pos < st.lines.length then
      let line := st.peek
      if line = "" ∨ chStartsWith line "//" then motionLoop f mo (st.adv 1)
      else if line = "\x7d" then .ok (mo, st.adv 1)
      else if chStartsWith line "FrameRate" then do
        let fr ← pyIdx (pySplit line) 1 >>= pyFloat
        motionLoop f { mo with frame_rate := fr } (st.adv 1)
      else if chStartsWith line "FrameLoop" then do
        let parts := (pySplit line).drop 1
        let q0 ← pyIdx parts 0 >>= pyFloat
        let q1 ← pyIdx parts 1 >>= pyFloat
        motionLoop f { mo with frame_loop := (q0, q1) } (st.adv 1)
      else if chStartsWith line "FCurve" ∨ chStartsWith line "Animate" then
        motionLoop f mo (st.adv 1)
      else motionLoop f mo (st.adv 1)
    else .ok (mo, st)

/-- `_parse_motion`. -/
def parseMotion (f : ℕ) (st : PState) : Except String (GMotion × PState) :=
  let (line, st) := st.readLine
  let mo : GMotion := { name := (extractName line).getD "" }
  motionLoop f mo (headerSkip line st)

/-- Body loop of `_parse_model`.  `depth` is the block's own brace depth
(started at 1, decremented on a lone `}`; the source's
`elif line.endswith('{') and not any(...): pass` arm has no effect and is
not modelled).  The loop also stops, returning the model built so far,
when the input ends with the block still open. -/
def modelLoop : ℕ → GModel → ℕ → PState → Except String (GModel × PState)
  | 0, _, _, _ => .error "fuel exhausted"
  | f + 1, model, depth, st =>
    if st.pos < st.lines.length ∧ 0 < depth then
      let line := st.peek
      if line = "" ∨ chStartsWith line "//" then modelLoop f model depth (st.adv 1)
      else if line = "\x7d" then
        if depth - 1 = 0 then .ok (model, st.adv 1)
        else modelLoop f model (depth - 1) (st.adv 1)
      else if chStartsWith line "BoundingBox" then do
        let (bb, st) ← parseBoundingBox st
        modelLoop f { model with bounding_box := some bb } depth st
      else if chStartsWith line "Bone" then do
        let (bone, st) ← parseBone f st
        modelLoop f { model with
          bones := model.bones ++ [bone],
          bone_dict := (bone.name, model.bones.length) :: model.bone_dict } depth st
      else if chStartsWith line "Part" then do
        let (part, st) ← parsePart f st
        modelLoop f { model with parts := model.parts ++ [part] } depth st
      else if chStartsWith line "Material" then do
        let (mat, st) ← parseMaterial f st
        modelLoop f { model with
          materials := model.materials ++ [mat],
          material_dict := (mat.name, model.materials.length) :: model.material_dict } depth st
      else if chStartsWith line "Texture" then do
        let (tex, st) ← parseTexture f st
        modelLoop f { model with
          textures := model.textures ++ [tex],
          texture_dict := (tex.name, model.textures.length) :: model.texture_dict } depth st
      else if chStartsWith line "Motion" then do
        let (mo, st) ← parseMotion f st
        modelLoop f { model with motions := model.motions ++ [mo] } depth st
      else modelLoop f model depth (st.adv 1)
    else .ok (model, st)

/-- `_parse_model`. -/
def parseModel (f : ℕ) (st : PState) : Except String (GModel × PState) :=
  let (line, st) := st.readLine
  let model : GModel := { name := (extractName line).getD "" }
  modelLoop f model 1 (headerSkip line st)

/-- Top-level block loop of `read_file` after the header check: skip
blanks, comments, `Define*`/`BlindData` lines; parse the first `Model`
block and stop; an input with no `Model` block yields the empty model. -/
def readLoop : ℕ → PState → Except String (GModel × PState)
  | 0, _ => .error "fuel exhausted"
  | f + 1, st =>
    if st.pos < st.lines.length then
      let line := st.peek
      if line = "" ∨ chStartsWith line "//" then readLoop f (st.adv 1)
      else if chStartsWith line "DefineEnum" ∨ chStartsWith line "DefineBlock" ∨
              chStartsWith line "DefineCommand" ∨ chStartsWith line "BlindData" then
        readLoop f (st.adv 1)
      else if chStartsWith line "Model" then parseModel f st
      else readLoop f (st.adv 1)
    else .ok ({}, st)

/-- `GMSReader.read_file` on the list of raw file lines: `IndexError` on an
empty file, `ValueError` when the first line does not start with `.GMS`,
then the top-level loop.  The `part_to_bone` / `arrays_dict` tables
collected in the state are copied onto the returned model.  The fuel
`4 * n + 16` dominates the total number of loop steps, each of which
consumes an input line. -/
def readFile (raw : List String) : Except String GModel :=
  match raw.head? with
  | none => .error "IndexError: list index out of range"
  | some l0 =>
    if chStartsWith l0 ".GMS" then do
      let (model, st) ← readLoop (4 * raw.length + 16) ⟨raw, 1, [], []⟩
      .ok { model with part_to_bone := st.partToBone, arrays_dict := st.arraysDict }
    else .error "Not a valid GMS file - missing .GMS header"

/-! ## Skin weight resolver (`mesh_builder.apply_vertex_weights`)

The Blender-side effect of `apply_vertex_weights` is a sequence of
`vertex_group.add([v], w, 'REPLACE')` calls.  The embedding records, per
vertex, the ordered list of `(group-name, weight)` additions it performs
(vertex groups are named after the resolved skeleton bones).  The weight
epsilon `0.0001` of the source is the rational `mkRat 1 10000`. -/

/-- The two raw weight-entry shapes understood by `_iter_weight_entries`:
a list of `(channel-index, weight)` pairs, or a dense list of weights whose
position is the channel index. -/
inductive VertWeights where
  | pairs (l : List (ℕ × ℚ))
  | dense (l : List ℚ)
deriving DecidableEq

/-- Python `not vert_weights` (empty weight record). -/
def VertWeights.isEmptyW : VertWeights → Bool
  | .pairs l => l.isEmpty
  | .dense l => l.isEmpty

/-- `_iter_weight_entries`: yield `(channel, weight)` pairs from either
shape (for the dense shape the list position is the channel index). -/
def iterWeightEntries : VertWeights → List (ℕ × ℚ)
  | .pairs l => l
  | .dense l => l.enum

/-- The vertex-group table `bone_groups`, as a function from a `BlendSubset`
value (a local bone index into the driving bone's `blend_bones`) to the name
of the vertex group it maps to: the sanitized `blend_bones` entry, provided
the index is in range and the armature has a bone of that name.  Out-of-range
indices and names absent from the armature produce no group (the source logs
a warning and `continue`s). -/
def resolveLocalIdx (blendBones armBones : List String) (v : Int) : Option String :=
  if v < 0 ∨ (blendBones.length : Int) ≤ v then none
  else
    let boneName := sanitizeName (blendBones.getD v.toNat "")
    if boneName ∈ armBones then some boneName else none

/-- Case 2 of `apply_vertex_weights`, for one vertex: walk the weight
entries; an entry at channel `c` with weight `w` contributes
`(group, w)` when `c` is in range for `blend_subset`, `w > 0.0001`, and the
local index `blend_subset[c]` has a vertex group. -/
def resolveVertex (blendSubset : List Int) (resolve : Int → Option String)
    (entries : List (ℕ × ℚ)) : List (String × ℚ) :=
  entries.filterMap fun e =>
    if e.1 < blendSubset.length then
      if mkRat 1 10000 < e.2 then (resolve (blendSubset.getD e.1 0)).map (fun n => (n, e.2))
      else none
    else none

/-- Result of the resolver, distinguishing the early-exit paths of the
source from an actual weight application. -/
inductive SkinResult where
  /-- no driving bone name for the part (or an empty name, both falsy). -/
  | noPartBone
  /-- the `(not parent_bone or (no blend_bones and no blend_subset))` skip:
  rigid mesh bound by bone parenting, no vertex weights. -/
  | rigidSkip
  /-- driving bone found but it has no `blend_bones` while the mesh has a
  `blend_subset`. -/
  | noBlendBones
  /-- per-vertex lists of `(vertex-group name, weight)` additions. -/
  | applied (w : List (List (String × ℚ)))
deriving DecidableEq

/-- `mesh_builder.apply_vertex_weights`.  `meshName` is the Blender object
name (the sanitized mesh name); `ptb` is `model.part_to_bone`; `bones` is
`model.bones`; `armBones` the armature's bone names; `blendSubset` and
`weights` the data stashed on the mesh object; `nverts` the vertex count of
the built mesh. -/
def applyVertexWeights (meshName : String) (ptb : List (String × String))
    (bones : List GBone) (armBones : List String)
    (blendSubset : List Int) (weights : List VertWeights) (nverts : ℕ) :
    SkinResult :=
  let base := pyReplace meshName "_Mesh" "_Part"
  match ptb.lookup base with
  | none => .noPartBone
  | some pbName =>
    if pbName = "" then .noPartBone
    else
      match bones.find? (fun b => b.name == pbName) with
      | none => .rigidSkip
      | some pb =>
        if pb.blend_bones = [] ∧ blendSubset = [] then .rigidSkip
        else if pb.blend_bones = [] then .noBlendBones
        else
          let resolve := resolveLocalIdx pb.blend_bones armBones
          if (weights = [] ∨ weights.all VertWeights.isEmptyW) ∧ blendSubset.length = 1 then
            -- Case 1: single-bone mesh, all vertices weighted 1.0
            match resolve (blendSubset.getD 0 0) with
            | some n => .applied (List.replicate nverts [(n, 1)])
            | none => .applied (List.replicate nverts [])
          else if weights ≠ [] then
            -- Case 2: per-vertex weighted entries (capped at the vertex count)
            .applied ((weights.take nverts).map fun vw =>
              resolveVertex blendSubset resolve (iterWeightEntries vw))
          else .applied (List.replicate nverts [])

/-- The caller's binding decision in `import_gms_file`: a mesh is rigid
(bone-parented, no armature modifier) exactly when its driving bone exists,
has no `blend_bones`, and the mesh has no `blend_subset`. -/
def callerIsRigid (meshName : String) (ptb : List (String × String))
    (bones : List GBone) (blendSubset : List Int) : Bool :=
  let base := pyReplace meshName "_Mesh" "_Part"
  match ptb.lookup base with
  | none => false
  | some pbName =>
    if pbName = "" then false
    else
      match bones.find? (fun b => b.name == pbName) with
      | none => false
      | some pb => pb.blend_bones.isEmpty && blendSubset.isEmpty

/-! ## Bone hierarchy resolver (`import_gms.create_armature`)

The transform mathematics of `create_armature` runs on `mathutils` 4×4
rigid matrices; Python floats are modelled as reals.  A homogeneous matrix
`Translation(t) @ RotationMatrix(R)` with bottom row `0 0 0 1` is exactly
the affine pair `(R, t)`, and `mathutils` matrix multiplication of two such
matrices is `Affine.comp` below, so the embedding represents every
`Matrix.Translation(t) @ rot` product as its rotation/translation pair. -/

/-- A quaternion in `mathutils.Quaternion((w, x, y, z))` component order. -/
structure Quat where
  w : ℝ
  x : ℝ
  y : ℝ
  z : ℝ

/-- The bone data consumed by `create_armature` (the relevant fields of a
parsed bone, with the numeric fields as reals). -/
structure ABone where
  name : String
  parent_name : Option String := none
  translation : Fin 3 → ℝ
  rotation : ℝ × ℝ × ℝ := (0, 0, 0)
  rotation_quaternion : Option Quat := none

/-- A rigid transform: the affine pair of a homogeneous 4×4 matrix
`[[R, t], [0, 1]]`. -/
structure Affine where
  rot : Matrix (Fin 3) (Fin 3) ℝ
  trans : Fin 3 → ℝ

/-- Homogeneous matrix product `a @ b` on affine pairs. -/
noncomputable def Affine.comp (a b : Affine) : Affine :=
  ⟨a.rot * b.rot, a.rot.mulVec b.trans + a.trans⟩

/-- Rotation about the X axis (`mathutils` convention, column vectors). -/
noncomputable def rotX (t : ℝ) : Matrix (Fin 3) (Fin 3) ℝ :=
  !![1, 0, 0; 0, Real.cos t, -Real.sin t; 0, Real.sin t, Real.cos t]

/-- Rotation about the Y axis. -/
noncomputable def rotY (t : ℝ) : Matrix (Fin 3) (Fin 3) ℝ :=
  !![Real.cos t, 0, Real.sin t; 0, 1, 0; -Real.sin t, 0, Real.cos t]

/-- Rotation about the Z axis. -/
noncomputable def rotZ (t : ℝ) : Matrix (Fin 3) (Fin 3) ℝ :=
  !![Real.cos t, -Real.sin t, 0; Real.sin t, Real.cos t, 0; 0, 0, 1]

/-- `mathutils.Euler((x, y, z), 'XYZ').to_matrix()`: X applied first, then
Y, then Z, i.e. `Rz · Ry · Rx` on column vectors. -/
noncomputable def eulerXYZMatrix (x y z : ℝ) : Matrix (Fin 3) (Fin 3) ℝ :=
  rotZ z * rotY y * rotX x

/-- `q.w² + q.x² + q.y² + q.z²` (`mathutils` `length_squared`). -/
noncomputable def Quat.normSq (q : Quat) : ℝ :=
  q.w ^ 2 + q.x ^ 2 + q.y ^ 2 + q.z ^ 2

/-- Quaternion conjugate. -/
def Quat.conj (q : Quat) : Quat := ⟨q.w, -q.x, -q.y, -q.z⟩

/-- Componentwise scaling. -/
noncomputable def Quat.smul (c : ℝ) (q : Quat) : Quat :=
  ⟨c * q.w, c * q.x, c * q.y, c * q.z⟩

/-- `mathutils.Quaternion.invert()`: conjugate divided by the squared
norm. -/
noncomputable def Quat.invert (q : Quat) : Quat :=
  Quat.smul (1 / q.normSq) q.conj

/-- The rotation matrix of a (not necessarily unit) quaternion with the
`2 / ‖q‖²` scaling: for any nonzero quaternion this is the rotation matrix
of its normalization, which is what
`Quaternion.to_euler('XYZ')` followed by `Euler.to_matrix()` produces in
`mathutils` (`to_euler` normalizes a copy, converts it to this matrix, and
extracts angles; `to_matrix` of those angles restores the same matrix). -/
noncomputable def quatToMatrix (q : Quat) : Matrix (Fin 3) (Fin 3) ℝ :=
  let s := 2 / q.normSq
  !![1 - s * (q.y ^ 2 + q.z ^ 2), s * (q.x * q.y - q.w * q.z), s * (q.x * q.z + q.w * q.y);
     s * (q.x * q.y + q.w * q.z), 1 - s * (q.x ^ 2 + q.z ^ 2), s * (q.y * q.z - q.w * q.x);
     s * (q.x * q.z - q.w * q.y), s * (q.y * q.z + q.w * q.x), 1 - s * (q.x ^ 2 + q.y ^ 2)]

/-- The local rotation used for a bone: from the quaternion when present —
inverted first (`quat.invert()`), taking precedence over the Euler angles —
otherwise from the Euler angles in the fixed `'XYZ'` axis order. -/
noncomputable def boneLocalRot (b : ABone) : Matrix (Fin 3) (Fin 3) ℝ :=
  match b.rotation_quaternion with
  | some q => quatToMatrix q.invert
  | none => eulerXYZMatrix b.rotation.1 b.rotation.2.1 b.rotation.2.2

/-- The bone's local transform in PSP space:
`Matrix.Translation(translation * scale) @ rot_euler.to_matrix().to_4x4()`,
as an affine pair. -/
noncomputable def boneLocal (scale : ℝ) (b : ABone) : Affine :=
  ⟨boneLocalRot b, fun i => scale * b.translation i⟩

/-- One bone's world transform given the map of already-created bones
(keyed by sanitized name): parent's world composed with the local
transform when the parent name resolves, otherwise the local transform
itself (root bones and unresolved parent names). -/
noncomputable def boneWorld (scale : ℝ) (m : List (String × Affine)) (b : ABone) : Affine :=
  match b.parent_name with
  | none => boneLocal scale b
  | some p =>
    match m.lookup (sanitizeName p) with
    | some pw => pw.comp (boneLocal scale b)
    | none => boneLocal scale b

/-- The `bone_map` accumulation of `create_armature`: bones processed in
file order, each world transform stored under the sanitized bone name
(newest first, so `List.lookup` sees the latest binding like the Python
dict). -/
noncomputable def armatureMapAux (scale : ℝ) :
    List (String × Affine) → List ABone → List (String × Affine)
  | m, [] => m
  | m, b :: bs => armatureMapAux scale ((sanitizeName b.name, boneWorld scale m b) :: m) bs

/-- The finished `bone_map` (world PSP transforms) for a bone list. -/
noncomputable def createArmatureMap (scale : ℝ) (bones : List ABone) :
    List (String × Affine) :=
  armatureMapAux scale [] bones

/-! ## Auxiliary predicates and concrete fixtures used by the theorems -/

/-- A weight entry is resolvable: its channel is in range for
`blend_subset`, and the local index it selects resolves to a vertex group
(in range for `blend_bones`, name present in the armature). -/
def goodChannel (bb arm : List String) (subset : List Int) (e : ℕ × ℚ) : Bool :=
  decide (e.1 < subset.length) && (resolveLocalIdx bb arm (subset.getD e.1 0)).isSome

deriving instance DecidableEq for Except

/-- The six-name `blend_bones` list of the specification's examples. -/
def blendBonesEx : List String := ["hip", "spine", "neck", "head", "l_arm", "r_arm"]

/-- A driving bone carrying that `blend_bones` list. -/
def drvBone : GBone := { name := "drv", blend_bones := blendBonesEx }

/-- A driving bone with no `blend_bones` list. -/
def rigBone : GBone := { name := "rig" }

/-- Unterminated-block fixture: the text ends while the `Model` and `Bone`
blocks are still open. -/
def cex8 : List String := [".GMS", "Model \"m\" \x7b", "Bone \"b\" \x7b"]

/-- The bone parsed out of `cex8`. -/
def boneBex : GBone := { name := "b" }

/-- The (partial) model `read_file` returns for `cex8`. -/
def model8 : GModel := { name := "m", bones := [boneBex], bone_dict := [("b", 0)] }

/-- Short-`BoundingBox` fixture: the directive line has two of its six
numbers. -/
def cex9 : List String := [".GMS", "Model \"m\" \x7b", "BoundingBox 1.0 2.0", "\x7d"]

/-- Short-`Diffuse`-in-`Material` fixture: that directive is length-guarded
in the source and degrades. -/
def cex9b : List String :=
  [".GMS", "Model \"m\" \x7b", "Material \"mat\" \x7b", "Diffuse 1.0 2.0", "\x7d", "\x7d"]

/-- The material parsed out of `cex9b` (no diffuse recorded). -/
def matEx : GMaterial := { name := "mat" }

/-- The model `read_file` returns for `cex9b`. -/
def model9b : GModel :=
  { name := "m", materials := [matEx], material_dict := [("mat", 0)] }

/-- `Arrays` fixture: flags `VERTEX|NORMAL`, one data line with only three
numbers. -/
def cex7 : List String :=
  [".GMS", "Model \"m\" \x7b", "Part \"p\" \x7b",
   "Arrays \"arr\" VERTEX|NORMAL 1 \x7b", "1.0 2.0 3.0", "\x7d", "\x7d", "\x7d"]

/-- The vertex data decoded from `cex7`: one position, nothing else. -/
def vd7 : GVertexData := { positions := [⟨1, 2, 3⟩] }

/-- The part parsed out of `cex7`. -/
def part7 : GPart := { name := "p" }

/-- The model `read_file` returns for `cex7`. -/
def model7 : GModel :=
  { name := "m", parts := [part7], arrays_dict := [("arr", vd7)] }

/-- Root bone `A` of the hierarchy fixture: 90° Euler rotation about Z,
zero translation. -/
noncomputable def boneA : ABone :=
  { name := "A", translation := ![0, 0, 0], rotation := (0, 0, Real.pi / 2) }

/-- Child bone `B`: parented to `A`, local translation `(1, 0, 0)`,
identity local rotation. -/
noncomputable def boneB : ABone :=
  { name := "B", parent_name := some "A", translation := ![1, 0, 0] }

/-- A bone carrying both Euler angles and a quaternion (the 180°-about-Z
unit quaternion), to exhibit the quaternion precedence. -/
noncomputable def boneQ : ABone :=
  { name := "q", translation := ![0, 0, 0], rotation := (1, 2, 3),
    rotation_quaternion := some ⟨0, 0, 0, 1⟩ }

/-- The identity rigid transform. -/
noncomputable def affineId : Affine := ⟨1, 0⟩

end GMS

/-! # Theorems for the claims C1 – C10 -/

namespace GMS

/-- Helper for C6: filtering out the elements on which the function returns
`none` does not change a `filterMap`. -/
theorem filterMap_eq_filterMap_filter {α β : Type} (f : α → Option β) (p : α → Bool)
    (l : List α) (h : ∀ a, p a = false → f a = none) :
    l.filterMap f = (l.filter p).filterMap f := by
  induction l with
  | nil => rfl
  | cons a l ih =>
    cases hp : p a with
    | true => simp [List.filter_cons, hp, List.filterMap_cons, ih]
    | false => simp [List.filter_cons, hp, List.filterMap_cons, h a hp, ih]

/-- Claim C1: every weight entry at channel `c` with weight `w` is
attributed to the bone named `blend_bones[blend_subset[c]]` of the driving
bone (double indirection), resolved to a skeleton bone by (sanitized) name;
and on the concrete example — `blend_subset = [2, 5]`, the six-name
`blend_bones`, vertex entry `[(0, 0.7), (1, 0.3)]` — the full resolver
produces `[("neck", 0.7), ("r_arm", 0.3)]`. -/
theorem skin_weight_double_indirection :
    (∀ (bb arm : List String) (subset : List Int) (entries : List (ℕ × ℚ)) (c : ℕ) (w : ℚ),
        (c, w) ∈ entries →
        c < subset.length →
        0 ≤ subset.getD c 0 →
        subset.getD c 0 < (bb.length : Int) →
        sanitizeName (bb.getD (subset.getD c 0).toNat "") ∈ arm →
        mkRat 1 10000 < w →
        (sanitizeName (bb.getD (subset.getD c 0).toNat ""), w) ∈
          resolveVertex subset (resolveLocalIdx bb arm) entries) ∧
    applyVertexWeights "body_0_Mesh" [("body_0_Part", "drv")] [drvBone] blendBonesEx [2, 5]
        [VertWeights.pairs [(0, mkRat 7 10), (1, mkRat 3 10)]] 1
      = .applied [[("neck", mkRat 7 10), ("r_arm", mkRat 3 10)]] := by
  constructor
  · intro bb arm subset entries c w hmem hc h0 hlt harm hw
    unfold resolveVertex
    apply List.mem_filterMap.mpr
    refine ⟨(c, w), hmem, ?_⟩
    have hnot : ¬ (subset.getD c 0 < 0 ∨ (bb.length : Int) ≤ subset.getD c 0) := by
      push_neg
      exact ⟨h0, hlt⟩
    simp only [resolveLocalIdx, if_pos hc, if_pos hw, if_neg hnot, if_pos harm,
      Option.map_some']
  · decide

/-- Witness for C1 at channel 0 of the concrete example. -/
theorem skin_weight_double_indirection_witness :
    ((0 : ℕ), mkRat 7 10) ∈ [((0 : ℕ), mkRat 7 10), (1, mkRat 3 10)] ∧
    (sanitizeName (blendBonesEx.getD ((([2, 5] : List Int).getD 0 0)).toNat ""), mkRat 7 10) ∈
      resolveVertex [2, 5] (resolveLocalIdx blendBonesEx blendBonesEx)
        [(0, mkRat 7 10), (1, mkRat 3 10)] :=
  ⟨by decide,
   skin_weight_double_indirection.1 blendBonesEx blendBonesEx [2, 5]
     [(0, mkRat 7 10), (1, mkRat 3 10)] 0 (mkRat 7 10)
     (by decide) (by decide) (by decide) (by decide) (by decide) (by decide)⟩

/-- Claim C3: a mesh whose `blend_subset` has exactly one (resolvable)
entry and which has no per-vertex weight data at all gets every vertex
weighted 1.0 to the single bone resolved through
`blend_bones[blend_subset[0]]` of the driving bone. -/
theorem single_bone_full_weight (meshName pbName : String)
    (ptb : List (String × String)) (bones : List GBone) (arm : List String)
    (pb : GBone) (i : Int) (nverts : ℕ)
    (hlook : ptb.lookup (pyReplace meshName "_Mesh" "_Part") = some pbName)
    (hne : pbName ≠ "")
    (hfind : bones.find? (fun b => b.name == pbName) = some pb)
    (hbb : pb.blend_bones ≠ [])
    (h0 : 0 ≤ i) (hlen : i < (pb.blend_bones.length : Int))
    (harm : sanitizeName (pb.blend_bones.getD i.toNat "") ∈ arm) :
    applyVertexWeights meshName ptb bones arm [i] [] nverts
      = .applied (List.replicate nverts
          [(sanitizeName (pb.blend_bones.getD i.toNat ""), 1)]) := by
  have hnot : ¬ (i < 0 ∨ (pb.blend_bones.length : Int) ≤ i) := by
    push_neg
    exact ⟨h0, hlen⟩
  simp only [applyVertexWeights, hlook, hfind, if_neg hne]
  rw [if_neg (by simp : ¬ (pb.blend_bones = [] ∧ ([i] : List Int) = []))]
  rw [if_neg hbb]
  rw [if_pos (by simp)]
  simp only [show ([i] : List Int).getD 0 0 = i from rfl, resolveLocalIdx,
    if_neg hnot, if_pos harm]

/-- Witness for C3: `blend_subset = [3]`, no weights, five vertices. -/
theorem single_bone_full_weight_witness :
    ([("x_Part", "drv")].lookup (pyReplace "x_Mesh" "_Mesh" "_Part") = some "drv") ∧
    applyVertexWeights "x_Mesh" [("x_Part", "drv")] [drvBone] blendBonesEx [3] [] 5
      = .applied (List.replicate 5
          [(sanitizeName (drvBone.blend_bones.getD ((3 : Int)).toNat ""), 1)]) :=
  ⟨by decide,
   single_bone_full_weight "x_Mesh" "drv" [("x_Part", "drv")] [drvBone] blendBonesEx
     drvBone 3 5 (by decide) (by decide) (by decide) (by decide) (by decide) (by decide)
     (by decide)⟩

/-- Claim C4: a mesh whose driving bone exists but has no `blend_bones`
list, and which itself has no `blend_subset`, makes the resolver signal the
rigid skip (no per-vertex weights emitted), and the caller's binding
decision marks the same mesh rigid for direct bone parenting. -/
theorem rigid_mesh_not_applicable (meshName pbName : String)
    (ptb : List (String × String)) (bones : List GBone) (arm : List String)
    (pb : GBone) (weights : List VertWeights) (nverts : ℕ)
    (hlook : ptb.lookup (pyReplace meshName "_Mesh" "_Part") = some pbName)
    (hne : pbName ≠ "")
    (hfind : bones.find? (fun b => b.name == pbName) = some pb)
    (hbb : pb.blend_bones = []) :
    applyVertexWeights meshName ptb bones arm [] weights nverts = .rigidSkip ∧
    callerIsRigid meshName ptb bones [] = true := by
  constructor
  · simp only [applyVertexWeights, hlook, hfind, if_neg hne]
    simp [hbb]
  · simp only [callerIsRigid, hlook, hfind, if_neg hne]
    simp [hbb]

/-- Witness for C4 on a concrete rigid mesh. -/
theorem rigid_mesh_not_applicable_witness :
    ([("r_Part", "rig")].lookup (pyReplace "r_Mesh" "_Mesh" "_Part") = some "rig") ∧
    applyVertexWeights "r_Mesh" [("r_Part", "rig")] [rigBone] [] []
        [VertWeights.dense [1]] 4 = .rigidSkip ∧
    callerIsRigid "r_Mesh" [("r_Part", "rig")] [rigBone] [] = true :=
  ⟨by decide,
   rigid_mesh_not_applicable "r_Mesh" "rig" [("r_Part", "rig")] [rigBone] []
     rigBone [VertWeights.dense [1]] 4 (by decide) (by decide) (by decide) (by decide)⟩

/-- Claim C5: every `(bone-name, weight)` pair the per-vertex resolver
emits has weight at least `1e-4` (the source keeps exactly the weights
strictly above `0.0001`, so everything below the epsilon is dropped); and
concretely a `0.00005` weight is dropped while `0.0002` is kept. -/
theorem weight_epsilon_rule :
    (∀ (subset : List Int) (resolve : Int → Option String) (entries : List (ℕ × ℚ))
        (n : String) (w : ℚ),
        (n, w) ∈ resolveVertex subset resolve entries → mkRat 1 10000 ≤ w) ∧
    resolveVertex [0, 1] (resolveLocalIdx ["hip", "spine"] ["hip", "spine"])
        [(0, mkRat 1 20000), (1, mkRat 1 5000)] = [("spine", mkRat 1 5000)] := by
  constructor
  · intro subset resolve entries n w hmem
    unfold resolveVertex at hmem
    rcases List.mem_filterMap.mp hmem with ⟨e, -, hfe⟩
    by_cases hc : e.1 < subset.length
    · simp only [if_pos hc] at hfe
      by_cases he : mkRat 1 10000 < e.2
      · simp only [if_pos he] at hfe
        rcases Option.map_eq_some'.mp hfe with ⟨a, -, heq⟩
        cases heq
        exact le_of_lt he
      · simp [he] at hfe
    · simp [hc] at hfe
  · decide

/-- Witness for C5 at the kept `0.0002` entry. -/
theorem weight_epsilon_rule_witness :
    (("spine", mkRat 1 5000) ∈
      resolveVertex [0, 1] (resolveLocalIdx ["hip", "spine"] ["hip", "spine"])
        [(0, mkRat 1 20000), (1, mkRat 1 5000)]) ∧
    mkRat 1 10000 ≤ mkRat 1 5000 :=
  ⟨by decide,
   weight_epsilon_rule.1 [0, 1] (resolveLocalIdx ["hip", "spine"] ["hip", "spine"])
     [(0, mkRat 1 20000), (1, mkRat 1 5000)] "spine" (mkRat 1 5000) (by decide)⟩

/-- Claim C6: a bad weight entry — channel out of range for
`blend_subset`, `blend_subset` value out of range for `blend_bones`, or a
resolved name absent from the skeleton — is dropped individually: deleting
the bad entries does not change the resolver's output on a vertex, so the
remaining channels resolve exactly as without them (resolution is a total
function, so it never aborts); concretely, with `blend_subset = [9, 2]`
against the six-entry `blend_bones`, channel 0 is dropped and channel 1
still resolves. -/
theorem out_of_range_entries_skipped :
    (∀ (bb arm : List String) (subset : List Int) (entries : List (ℕ × ℚ)),
        resolveVertex subset (resolveLocalIdx bb arm) entries =
          resolveVertex subset (resolveLocalIdx bb arm)
            (entries.filter (goodChannel bb arm subset))) ∧
    resolveVertex [9, 2] (resolveLocalIdx blendBonesEx blendBonesEx)
        [(0, mkRat 1 2), (1, mkRat 1 2)] = [("neck", mkRat 1 2)] := by
  constructor
  · intro bb arm subset entries
    unfold resolveVertex
    apply filterMap_eq_filterMap_filter
    intro e hbad
    by_cases hc : e.1 < subset.length
    · have hr : resolveLocalIdx bb arm (subset.getD e.1 0) = none := by
        cases hr : resolveLocalIdx bb arm (subset.getD e.1 0) with
        | none => rfl
        | some n =>
          have hg : goodChannel bb arm subset e = true := by
            simp only [goodChannel, hr]
            simp [hc]
          simp [hg] at hbad
      rw [if_pos hc, hr]
      simp
    · simp [hc]
  · decide

/-- Claim C7: the vertex array decoder consumes fields left-to-right in
the fixed order position(3) / normal(3) / uv(2) / color(4) / weights, and
appends a field only when enough values remain: for flags `VERTEX|NORMAL`
and a data line of just three numbers, exactly one position is appended and
no normal/uv/color/weight, with no error (shown both for the line decoder
on arbitrary values and for a full parse of such a file). -/
theorem arrays_short_line_record :
    (∀ (a b c : ℚ) (vd : GVertexData),
        decodeArraysLine (hasSub "VERTEX|NORMAL" "VERTEX") (hasSub "VERTEX|NORMAL" "NORMAL")
          (hasSub "VERTEX|NORMAL" "TEXCOORD") (hasSub "VERTEX|NORMAL" "COLOR")
          (weightCountOf "VERTEX|NORMAL") [a, b, c] vd =
          { vd with positions := vd.positions ++ [⟨a, b, c⟩] }) ∧
    readFile cex7 = .ok model7 := by
  constructor
  · intro a b c vd
    have h1 : hasSub "VERTEX|NORMAL" "VERTEX" = true := by decide
    have h2 : hasSub "VERTEX|NORMAL" "NORMAL" = true := by decide
    have h3 : hasSub "VERTEX|NORMAL" "TEXCOORD" = false := by decide
    have h4 : hasSub "VERTEX|NORMAL" "COLOR" = false := by decide
    have h5 : weightCountOf "VERTEX|NORMAL" = 0 := by decide
    rw [h1, h2, h3, h4, h5]
    simp [decodeArraysLine]
  · decide

/-- Counterexample to claim C8: on an input whose text ends while the
`Model` and `Bone` blocks are still open, `read_file` does NOT abort — it
returns the partially built model (so an unterminated block is not a fatal
structural error in this code). -/
theorem unterminated_block_returns_model_cex : readFile cex8 = .ok model8 := by decide

/-- Amended C8: of the two structural checks the spec lists, only the
missing-`.GMS`-header case is fatal (hard failure, no model); an input that
ends while a block is still open completes and yields the partial model
parsed so far. -/
theorem structural_error_policy :
    (∀ (l0 : String) (rest : List String), chStartsWith l0 ".GMS" = false →
        readFile (l0 :: rest) = .error "Not a valid GMS file - missing .GMS header") ∧
    readFile cex8 = .ok model8 := by
  constructor
  · intro l0 rest h
    simp [readFile, h]
  · decide

/-- Witness for the header clause of the amended C8. -/
theorem structural_error_policy_witness :
    chStartsWith "GMO" ".GMS" = false ∧
    readFile ["GMO"] = .error "Not a valid GMS file - missing .GMS header" :=
  ⟨by decide, structural_error_policy.1 "GMO" [] (by decide)⟩

/-- Counterexample to claim C9: a `BoundingBox` line with only two of its
six numbers raises `IndexError` and the whole parse aborts — short numeric
directive lines are not uniformly tolerated. -/
theorem short_directive_raises_cex :
    readFile cex9 = .error "IndexError: list index out of range" := by decide

/-- Amended C9: a short `BoundingBox` (likewise `Translate` / `RotateQ` /
`Scale` / layer-colour / `FrameLoop`) line raises `IndexError`, aborting
the parse; only the directives with an explicit length guard degrade — a
short `Diffuse` inside a `Material` block is silently skipped and the
parse completes. -/
theorem short_directive_behavior :
    readFile cex9 = .error "IndexError: list index out of range" ∧
    readFile cex9b = .ok model9b :=
  ⟨by decide, by decide⟩

/-- Helper for C10: scaling a quaternion by a nonzero factor leaves its
rotation matrix unchanged (both scalings cancel in the `2/‖·‖²` formula). -/
theorem quatToMatrix_smul (c : ℝ) (q : Quat) (hc : c ≠ 0) :
    quatToMatrix (Quat.smul c q) = quatToMatrix q := by
  have hd : (Quat.smul c q).normSq = c ^ 2 * q.normSq := by
    simp only [Quat.smul, Quat.normSq]; ring
  ext i j
  rcases eq_or_ne q.normSq 0 with hn | hn
  · have hz : (Quat.smul c q).normSq = 0 := by rw [hd, hn, mul_zero]
    fin_cases i <;> fin_cases j <;>
      · simp only [quatToMatrix, hz, hn, Matrix.cons_val_zero, Matrix.cons_val_zero',
          Matrix.cons_val_one, Matrix.cons_val_two, Matrix.cons_val_succ,
          Matrix.cons_val_succ', Matrix.head_cons, Matrix.vecHead, Matrix.vecTail,
          Matrix.of_apply, Matrix.cons_val', Matrix.cons_val_fin_one, Function.comp_apply,
          div_zero, zero_mul, sub_zero]
  · have hn' : q.w ^ 2 + q.x ^ 2 + q.y ^ 2 + q.z ^ 2 ≠ 0 := by
      simpa [Quat.normSq] using hn
    fin_cases i <;> fin_cases j <;>
      · simp only [quatToMatrix, Matrix.cons_val_zero, Matrix.cons_val_zero',
          Matrix.cons_val_one, Matrix.cons_val_two, Matrix.cons_val_succ,
          Matrix.cons_val_succ', Matrix.head_cons, Matrix.vecHead, Matrix.vecTail,
          Matrix.of_apply, Matrix.cons_val', Matrix.cons_val_fin_one, Function.comp_apply]
        rw [hd]
        simp only [Quat.smul, Quat.normSq]
        field_simp
        ring

/-- Helper for C10: conjugation transposes the quaternion rotation
matrix. -/
theorem quatToMatrix_conj (q : Quat) :
    quatToMatrix q.conj = (quatToMatrix q).transpose := by
  ext i j
  fin_cases i <;> fin_cases j <;>
    · simp only [quatToMatrix, Quat.conj, Quat.normSq, Matrix.transpose_apply,
        Matrix.cons_val_zero, Matrix.cons_val_zero', Matrix.cons_val_one,
        Matrix.cons_val_two, Matrix.cons_val_succ, Matrix.cons_val_succ',
        Matrix.head_cons, Matrix.vecHead, Matrix.vecTail, Matrix.of_apply,
        Matrix.cons_val', Matrix.cons_val_fin_one, Function.comp_apply]
      ring_nf

/-- Helper for C10: `mathutils` inversion of a quaternion of nonzero norm
yields the transposed (inverse) rotation matrix. -/
theorem quatToMatrix_invert (q : Quat) (hq : q.normSq ≠ 0) :
    quatToMatrix q.invert = (quatToMatrix q).transpose := by
  rw [show q.invert = Quat.smul (1 / q.normSq) q.conj from rfl,
    quatToMatrix_smul _ _ (one_div_ne_zero hq), quatToMatrix_conj]

/-- Claim C10: when a bone carries a quaternion it takes precedence over
any Euler angles and is inverted before use — the local rotation is the
transpose (inverse) of the quaternion's own rotation matrix; with no
quaternion the local rotation comes from the Euler angles in the fixed
`'XYZ'` axis order. -/
theorem quaternion_precedence_inverted :
    (∀ (b : ABone) (q : Quat), b.rotation_quaternion = some q → q.normSq ≠ 0 →
        boneLocalRot b = (quatToMatrix q).transpose) ∧
    (∀ b : ABone, b.rotation_quaternion = none →
        boneLocalRot b = eulerXYZMatrix b.rotation.1 b.rotation.2.1 b.rotation.2.2) := by
  constructor
  · intro b q hb hq
    simp only [boneLocalRot, hb]
    exact quatToMatrix_invert q hq
  · intro b hb
    simp only [boneLocalRot, hb]

/-- Witness for C10 at a bone carrying both Euler angles and the unit
quaternion `(0,0,0,1)`. -/
theorem quaternion_precedence_inverted_witness :
    boneQ.rotation_quaternion = some ⟨0, 0, 0, 1⟩ ∧
    Quat.normSq ⟨0, 0, 0, 1⟩ ≠ 0 ∧
    boneLocalRot boneQ = (quatToMatrix ⟨0, 0, 0, 1⟩).transpose :=
  ⟨rfl, by norm_num [Quat.normSq],
   quaternion_precedence_inverted.1 boneQ ⟨0, 0, 0, 1⟩ rfl (by norm_num [Quat.normSq])⟩

/-- Helper for C2: the `bone_map` fold splits along list concatenation. -/
theorem armatureMapAux_append (scale : ℝ) (m : List (String × Affine)) (xs ys : List ABone) :
    armatureMapAux scale m (xs ++ ys) = armatureMapAux scale (armatureMapAux scale m xs) ys := by
  induction xs generalizing m with
  | nil => rfl
  | cons b bs ih =>
    simp only [List.cons_append, armatureMapAux]
    exact ih _

/-- Claim C2: a bone whose parent name resolves in the map of
already-created bones gets world = ParentWorld · Local as matrix
composition, with Local = Translation · Rotation (rotation part
`ParentRot · LocalRot`, translation part `ParentRot · localTrans +
parentTrans` — not a translation-only sum); a bone with no parent name, or
an unresolved one, uses its local transform; the map is built in file
order, the parent looked up in the prefix map; and concretely a root `A`
rotated 90° about Z with child `B` at local translation `(1,0,0)` puts `B`
at world position `(0,1,0)` — `B`'s translation rotated through `A`'s
rotation. -/
theorem bone_world_composition :
    (∀ (scale : ℝ) (m : List (String × Affine)) (b : ABone) (p : String) (pw : Affine),
        b.parent_name = some p → m.lookup (sanitizeName p) = some pw →
        boneWorld scale m b =
          ⟨pw.rot * boneLocalRot b,
           pw.rot.mulVec (fun i => scale * b.translation i) + pw.trans⟩) ∧
    (∀ (scale : ℝ) (m : List (String × Affine)) (b : ABone),
        b.parent_name = none → boneWorld scale m b = boneLocal scale b) ∧
    (∀ (scale : ℝ) (m : List (String × Affine)) (b : ABone) (p : String),
        b.parent_name = some p → m.lookup (sanitizeName p) = none →
        boneWorld scale m b = boneLocal scale b) ∧
    (∀ (scale : ℝ) (pre : List ABone) (b : ABone) (post : List ABone),
        createArmatureMap scale (pre ++ b :: post) =
          armatureMapAux scale
            ((sanitizeName b.name, boneWorld scale (createArmatureMap scale pre) b) ::
              createArmatureMap scale pre) post) ∧
    ((createArmatureMap 1 [boneA, boneB]).lookup (sanitizeName "B")).map Affine.trans
      = some ![0, 1, 0] := by
  refine ⟨?_, ?_, ?_, ?_, ?_⟩
  · intro scale m b p pw hb hm
    simp only [boneWorld, hb, hm, Affine.comp, boneLocal]
  · intro scale m b hb
    simp only [boneWorld, hb]
  · intro scale m b p hb hm
    simp only [boneWorld, hb, hm]
  · intro scale pre b post
    show armatureMapAux scale [] (pre ++ b :: post) = _
    rw [armatureMapAux_append]
    rfl
  · have hAA : (sanitizeName "A" == sanitizeName "A") = true := by decide
    have hBB : (sanitizeName "B" == sanitizeName "B") = true := by decide
    have hBA : (sanitizeName "B" == sanitizeName "A") = false := by decide
    simp only [createArmatureMap, armatureMapAux, boneA, boneB, boneWorld, boneLocal,
      List.lookup, hAA, hBB, hBA, Option.map_some', Option.some.injEq, Affine.comp,
      boneLocalRot]
    funext i
    fin_cases i <;>
      simp [eulerXYZMatrix, rotX, rotY, rotZ, Matrix.mulVec, Matrix.dotProduct,
        Matrix.mul_apply, Fin.sum_univ_three, Real.cos_pi_div_two, Real.sin_pi_div_two,
        Matrix.cons_val_zero, Matrix.cons_val_zero', Matrix.cons_val_one,
        Matrix.cons_val_two, Matrix.cons_val_succ, Matrix.cons_val_succ',
        Matrix.head_cons, Matrix.vecHead, Matrix.vecTail, Matrix.of_apply,
        Matrix.cons_val', Matrix.cons_val_fin_one, Function.comp_apply]

/-- Witness for C2's resolvable-parent clause at a concrete map. -/
theorem bone_world_composition_witness :
    boneB.parent_name = some "A" ∧
    List.lookup (sanitizeName "A") [(sanitizeName "A", affineId)] = some affineId ∧
    boneWorld 1 [(sanitizeName "A", affineId)] boneB =
      ⟨affineId.rot * boneLocalRot boneB,
       affineId.rot.mulVec (fun i => 1 * boneB.translation i) + affineId.trans⟩ :=
  ⟨rfl, by simp [List.lookup],
   bone_world_composition.1 1 [(sanitizeName "A", affineId)] boneB "A" affineId rfl
     (by simp [List.lookup])⟩

end GMS
